import Mathlib

/-!
Shallow embedding of the rad-router radix-tree HTTP router
(src/lib/send.js: the Node radix tree; src/lib/router.js: the Router).

Conventions of the embedding:
* JS strings are `List Char`; `String.toList` is used to write literals.
* JS numbers used as counters (`priority`, `maxVars`, `numVars`) are `Int`.
* JS in-place mutation is modeled by explicit state passing: each mutating
  operation returns the updated node/router.  A thrown JS exception is an
  `Option JsErr` returned TOGETHER with the mutated state, because in the
  source a throw does not undo mutations already performed.
* `String.prototype.substr(start, len)` (start index + LENGTH, clamped) is
  modeled by `jsSubstr`; one-argument `substr(start)`/`slice(start)` by
  `List.drop`.
* Loops whose step count is not structurally bounded take a `fuel : Nat`.
-/

set_option autoImplicit false

namespace RadRouter

/-- The node type tags of src/lib/send.js (ROOT/STATIC/PARAM/WILDCARD/GROUP). -/
inductive NType where
  | root
  | static
  | param
  | wildcard
  | group
deriving DecidableEq, Repr

/-- Runtime error outcomes of the JS code.
`thrown` models `throw new Error(msg)`;
`refErr` models a ReferenceError from reading an undeclared variable;
`typeErr` models a TypeError (property access / call on undefined);
`fuelOut` is an artifact of the embedding marking exhausted fuel
(a loop the source would spin on). -/
inductive JsErr where
  | thrown (msg : String)
  | refErr (name : String)
  | typeErr (msg : String)
  | fuelOut
deriving DecidableEq, Repr

mutual
/-- A radix-tree vertex, field-for-field the `Node` constructor of
src/lib/send.js: path, varChild, nodeType, maxVars, childKeys, children,
handler, priority, middleware.  The handler slot holds `none` for JS `null`. -/
inductive Node (H : Type) where
  | mk (path : List Char) (varChild : Bool) (nodeType : NType) (maxVars : Int)
       (childKeys : List Char) (children : List (Node H))
       (handler : Option (HV H)) (priority : Int) (middleware : List H)

/-- A value stored in a `handler` slot: a callable (`fn`), a sub-router's
tree root stored by a group registration (`tree`), or some other
non-callable object that passed the `typeof handler` guard (`objV`). -/
inductive HV (H : Type) where
  | fn (h : H)
  | tree (t : Node H)
  | objV (tag : Nat)
end

variable {H : Type}

def Node.path : Node H → List Char
  | .mk p _ _ _ _ _ _ _ _ => p

def Node.varChild : Node H → Bool
  | .mk _ v _ _ _ _ _ _ _ => v

def Node.nodeType : Node H → NType
  | .mk _ _ t _ _ _ _ _ _ => t

def Node.maxVars : Node H → Int
  | .mk _ _ _ m _ _ _ _ _ => m

def Node.childKeys : Node H → List Char
  | .mk _ _ _ _ ck _ _ _ _ => ck

def Node.children : Node H → List (Node H)
  | .mk _ _ _ _ _ cs _ _ _ => cs

def Node.handler : Node H → Option (HV H)
  | .mk _ _ _ _ _ _ h _ _ => h

def Node.priority : Node H → Int
  | .mk _ _ _ _ _ _ _ pr _ => pr

def Node.middleware : Node H → List H
  | .mk _ _ _ _ _ _ _ _ mw => mw

/-- `new Node()` with all defaults (path '', STATIC, priority 1). -/
def Node.new : Node H := .mk [] false .static 0 [] [] none 1 []

/-- `_this.priority++`. -/
def Node.bumpPriority : Node H → Node H
  | .mk p v t m ck cs h pr mw => .mk p v t m ck cs h (pr + 1) mw

def Node.withPath (n : Node H) (x : List Char) : Node H :=
  match n with
  | .mk _ v t m ck cs h pr mw => .mk x v t m ck cs h pr mw

def Node.withVarChild (n : Node H) (x : Bool) : Node H :=
  match n with
  | .mk p _ t m ck cs h pr mw => .mk p x t m ck cs h pr mw

def Node.withNodeType (n : Node H) (x : NType) : Node H :=
  match n with
  | .mk p v _ m ck cs h pr mw => .mk p v x m ck cs h pr mw

def Node.withMaxVars (n : Node H) (x : Int) : Node H :=
  match n with
  | .mk p v t _ ck cs h pr mw => .mk p v t x ck cs h pr mw

def Node.withChildKeys (n : Node H) (x : List Char) : Node H :=
  match n with
  | .mk p v t m _ cs h pr mw => .mk p v t m x cs h pr mw

def Node.withChildren (n : Node H) (x : List (Node H)) : Node H :=
  match n with
  | .mk p v t m ck _ h pr mw => .mk p v t m ck x h pr mw

def Node.withHandler (n : Node H) (x : Option (HV H)) : Node H :=
  match n with
  | .mk p v t m ck cs _ pr mw => .mk p v t m ck cs x pr mw

def Node.withMiddleware (n : Node H) (x : List H) : Node H :=
  match n with
  | .mk p v t m ck cs h pr _ => .mk p v t m ck cs h pr x

/-- `s[i]` on a JS string: the character, or `none` for `undefined` when out
of range. -/
def getC (s : List Char) (i : Nat) : Option Char := s.get? i

/-- `s.substr(start, len)`: `len` characters starting at index `start`,
clamped to the end of the string (JS `String.prototype.substr`). -/
def jsSubstr (s : List Char) (st len : Nat) : List Char := (s.drop st).take len

/-- `s.toLowerCase()` (ASCII as used by paths). -/
def jsLower (s : List Char) : List Char := s.map Char.toLower

/-- The prefix-match loop of addRoute:
`while (i < max && path[i] === _this.path[i]) i++`. -/
def commonPrefixLen : List Char → List Char → Nat
  | a :: as, b :: bs => if a = b then commonPrefixLen as bs + 1 else 0
  | _, _ => 0

/-- `pathVariables(path)`: the number of ':' and '*' characters. -/
def pathVariables (s : List Char) : Int :=
  ((s.filter (fun c => c == ':' || c == '*')).length : Int)

/-- One step of `children.sort(function (a, b) { return a.priority < b.priority })`.
The comparator returns a boolean, coerced by the sort to 1 (a after b) or 0
(keep relative order); this induces the total preorder "descending priority,
stable".  `insertDesc` inserts a (original-index, node) pair into an
already-sorted list, after all entries of greater or equal priority. -/
def insertDesc (x : Nat × Node H) : List (Nat × Node H) → List (Nat × Node H)
  | [] => [x]
  | y :: ys => if y.snd.priority < x.snd.priority then x :: y :: ys else y :: insertDesc x ys

/-- The children sort of reprioritize, on pairs tagged with the original
index so that object identity can be tracked through the permutation. -/
def jsSortTagged (l : List (Nat × Node H)) : List (Nat × Node H) :=
  l.foldl (fun acc x => insertDesc x acc) []

/-- `Node.prototype.reprioritize(index)`: bump the priority of
`children[index]`, re-sort `children`, rebuild `childKeys` by the
substr-based string surgery of the source, and return the `newIndex`
found by scanning for the first child whose path equals the bumped
child's path.  Also returns (last component) the actual position of the
bumped child object after the sort, which the caller `addRoute` uses
when it keeps a direct reference to a freshly pushed child.
`children[index]` being `undefined` (index out of range) makes
`child.priority++` throw a TypeError. -/
def reprioritize (n : Node H) (index : Nat) : Except JsErr (Node H × Nat × Nat) :=
  match n.children.get? index with
  | none => .error (.typeErr "Cannot read properties of undefined")
  | some child0 =>
    let child := child0.bumpPriority
    let cs := n.children.set index child
    let tagged := jsSortTagged cs.enum
    let cs2 := tagged.map Prod.snd
    let newIndex := match cs2.findIdx? (fun c => c.path == child.path) with
                    | some j => j
                    | none => index
    let trueIdx := match tagged.findIdx? (fun q => q.fst == index) with
                   | some j => j
                   | none => index
    let ck := n.childKeys
    let ck2 := if newIndex ≠ index then
        ck.take newIndex ++ (ck.drop index).take (index + 1) ++
          (ck.drop newIndex).take index ++ ck.drop (index + 1)
      else ck
    .ok ((n.withChildren cs2).withChildKeys ck2, newIndex, trueIdx)

/-- The scan for the end of a variable name in addChild:
`end = i + 1; while (end < max && path[end] != '/') { ... end++ }`,
throwing when a second ':' or '*' occurs before the next '/'. -/
def scanEndGo : List Char → Nat → Except JsErr Nat
  | [], en => .ok en
  | c :: rest, en =>
    if c = '/' then .ok en
    else if c = ':' ∨ c = '*' then
      .error (.thrown "only one variable allowed per path segment")
    else scanEndGo rest (en + 1)

def scanEnd (path : List Char) (st : Nat) : Except JsErr Nat :=
  scanEndGo (path.drop st) st

/-- `Node.prototype.addChild(numVars, path, handler)` of src/lib/send.js,
as the recursion over the loop variable `i` (the cursor `_this` descends
into the created variable children; the updated subtree is returned).
Note two faithfully modeled slips of the source:
* `path.substr(offset, end)` takes LENGTH `end` (substr, not substring),
  so a ':' segment with a suffix keeps everything to the end of the path;
* the suffix child after a ':' segment is built with
  `new Node('', false, group ? GROUP : STATIC, ...)` but `group` is not a
  parameter of addChild (the call site passes it as an ignored 4th
  argument), so evaluating it throws a ReferenceError. -/
def addChildGo (fuel : Nat) (n : Node H) (numVars : Int) (path : List Char)
    (handler : Option (HV H)) (offset i : Nat) : Node H × Option JsErr :=
  match fuel with
  | 0 => (n, some .fuelOut)
  | fuel + 1 =>
    if numVars > 0 then
      match getC path i with
      | none =>
        -- char is undefined, which is neither ':' nor '*': the for loop keeps
        -- incrementing i without progress (the source would spin).
        addChildGo fuel n numVars path handler offset (i + 1)
      | some ch =>
        if ch ≠ ':' ∧ ch ≠ '*' then
          addChildGo fuel n numVars path handler offset (i + 1)
        else
          match scanEnd path (i + 1) with
          | .error e => (n, some e)
          | .ok en =>
            if n.children.length > 0 then
              (n, some (.thrown "variable route conflicts with existing children in path"))
            else if (en : Int) - (i : Int) < 2 then
              (n, some (.thrown "variables must be named in path"))
            else if ch = ':' then
              let n1 := if i > 0 then n.withPath (jsSubstr path offset i) else n
              let offset1 := if i > 0 then i else offset
              let pc : Node H := .mk [] false .param numVars [] [] none 1 []
              if en < path.length then
                let pc := pc.withPath (jsSubstr path offset1 en)
                (((n1.withChildren [pc]).withVarChild true), some (.refErr "group"))
              else
                let (pc2, err) := addChildGo fuel pc (numVars - 1) path handler offset1 (i + 1)
                (((n1.withChildren [pc2]).withVarChild true), err)
            else
              -- ch = '*': wildcard
              if en ≠ path.length ∨ numVars > 1 then
                (n, some (.thrown "wildcard routes can only be at the end of the path"))
              else if n.path.length > 0 ∧ n.path.getLast? = some '/' then
                (n, some (.thrown "wildcard conflicts with existing handle for the path segment"))
              else if i = 0 then
                -- i-- makes i = -1; path[-1] is undefined, which is not '/'
                (n, some (.thrown "No '/' before wildcard in path"))
              else
                let i1 := i - 1
                if getC path i1 ≠ some '/' then
                  (n, some (.thrown "No '/' before wildcard in path"))
                else
                  let leaf : Node H := .mk (path.drop i1) false .wildcard 1 [] [] handler 1 []
                  let marker : Node H := .mk [] true .wildcard 1 [] [leaf] none 1 []
                  (((n.withPath (jsSubstr path offset i1)).withChildKeys
                      ((path.drop i1).take 1)).withChildren [marker], none)
    else
      ((n.withPath (path.drop offset)).withHandler handler, none)

/-- The body of `splitNode`: the block of addRoute that splits the cursor
when the common prefix ends inside the cursor's path.  The new child
inherits everything except middleware; the cursor keeps the matched
prefix, becomes STATIC, loses its handler and keeps its middleware. -/
def splitNode (n : Node H) (i : Nat) (path : List Char) : Node H :=
  match n with
  | .mk p v t m ck cs h pr mw =>
    let childMax := cs.foldl (fun acc c => if c.maxVars > acc then c.maxVars else acc) m
    let child : Node H := .mk (p.drop i) v t childMax ck cs h (pr - 1) []
    .mk (path.take i) false .static m ((p.drop i).take 1) [child] none pr mw

/-- The `traverse` loop of `Node.prototype.addRoute`.  Each `continue
traverse` of the source steps the cursor into a child; here this is a
recursive call on that child, whose updated value is written back into
the parent's children.  Mutations performed before a throw persist. -/
def addRouteLoop (fuel : Nat) (n : Node H) (path : List Char) (numVars : Int)
    (handler : Option (HV H)) (group : Bool) : Node H × Option JsErr :=
  match fuel with
  | 0 => (n, some .fuelOut)
  | fuel + 1 =>
    let n := if numVars > n.maxVars then n.withMaxVars numVars else n
    let i := commonPrefixLen path n.path
    let n := if i < n.path.length then splitNode n i path else n
    if i < path.length then
      if n.nodeType = .group then
        (n, some (.thrown "Can not add path as child of defined group"))
      else
        let path2 := path.drop i
        if n.varChild then
          match n.children with
          | [] => (n, some (.typeErr "Cannot read properties of undefined"))
          | c :: rest =>
            let c := c.bumpPriority
            -- `if (numVars > _this.numVars) _this.numVars = numVars` reads a
            -- property `numVars` that does not exist on Node: the comparison
            -- with undefined is always false, so the block is a no-op.
            let numVars2 := numVars - 1
            if c.path = path2.take c.path.length ∧
               (c.path.length = path2.length ∨ getC path2 c.path.length = some '/') then
              let r := addRouteLoop fuel c path2 numVars2 handler group
              (n.withChildren (r.fst :: rest), r.snd)
            else
              (n.withChildren (c :: rest), some (.thrown "Path has an invalid wildcard value"))
        else
          match getC path2 0 with
          | none => (n, some .fuelOut)
          | some ch =>
            if n.nodeType = .param ∧ ch = '/' ∧ n.children.length = 1 then
              match n.children with
              | [] => (n, some (.typeErr "Cannot read properties of undefined"))
              | c :: rest =>
                let c := c.bumpPriority
                let r := addRouteLoop fuel c path2 numVars handler group
                (n.withChildren (r.fst :: rest), r.snd)
            else
              match n.childKeys.findIdx? (fun k => k == ch) with
              | some j =>
                match reprioritize n j with
                | .error e => (n, some e)
                | .ok (n2, newIdx, _) =>
                  match n2.children.get? newIdx with
                  | none => (n2, some (.typeErr "Cannot read properties of undefined"))
                  | some c =>
                    let r := addRouteLoop fuel c path2 numVars handler group
                    (n2.withChildren (n2.children.set newIdx r.fst), r.snd)
              | none =>
                if ch ≠ ':' ∧ ch ≠ '*' then
                  let n2 := n.withChildKeys (n.childKeys ++ [ch])
                  let fresh : Node H :=
                    .mk [] false (if group then .group else .static) numVars [] [] none 0 []
                  let n2 := n2.withChildren (n2.children ++ [fresh])
                  match reprioritize n2 (n2.childKeys.length - 1) with
                  | .error e => (n2, some e)
                  | .ok (n3, _, trueIdx) =>
                    -- `_this = child` keeps the object reference; trueIdx is where
                    -- the freshly pushed child ended up after the sort (the
                    -- newIndex return value is discarded by this call site).
                    match n3.children.get? trueIdx with
                    | none => (n3, some (.typeErr "Cannot read properties of undefined"))
                    | some c =>
                      let r := addChildGo fuel c numVars path2 handler 0 0
                      (n3.withChildren (n3.children.set trueIdx r.fst), r.snd)
                else
                  addChildGo fuel n numVars path2 handler 0 0
    else
      -- i = path.length: the new path ends exactly at this node
      match n.handler with
      | some _ => (n, some (.thrown "A handler is already registered for path"))
      | none => (n.withHandler handler, none)

/-- `Node.prototype.addRoute(path, handler, group)`. -/
def addRoute (fuel : Nat) (n : Node H) (path0 : List Char) (handler : Option (HV H))
    (group : Bool) : Node H × Option JsErr :=
  let path := jsLower path0
  let n := n.bumpPriority
  let numVars := pathVariables path
  if n.path.length > 0 ∨ n.children.length > 0 then
    addRouteLoop fuel n path numVars handler group
  else
    let r := addChildGo fuel n numVars path handler 0 0
    match r.snd with
    | some e => (r.fst, some e)
    | none => (r.fst.withNodeType (if group then .group else .root), none)

/-- Result of `Node.prototype.buildStack`: `{params, handler, stack}`.
Stack entries are middleware functions, the final handler value, or JS
`null` (`none`). -/
structure BuildResult (H : Type) where
  params : List (List Char × List Char)
  handler : Option (HV H)
  stack : List (Option (HV H))

/-- `params[key] = value` on a JS object: overwrite in place or append. -/
def objSet (k v : List Char) : List (List Char × List Char) → List (List Char × List Char)
  | [] => [(k, v)]
  | (k0, v0) :: rest => if k0 == k then (k, v) :: rest else (k0, v0) :: objSet k v rest

/-- `executionStack.concat(_this.middleware)`: middleware functions become
stack entries. -/
def mwEntries {H : Type} (mw : List H) : List (Option (HV H)) :=
  mw.map (fun m => some (.fn m))

/-- The bottom of the `traverse` loop of buildStack (reached when the
remaining path neither extends nor equals the cursor's path): the
trailing-slash reconciliation of src/lib/send.js line 643 and the final
return. -/
def bsFallthrough (n : Node H) (path : List Char)
    (params : List (List Char × List Char)) (es : List (Option (HV H))) :
    Except JsErr (BuildResult H) :=
  let handler :=
    if path = ['/'] ∨
       ((n.path.length : Int) = (path.length : Int) + 1 ∧
        getC n.path path.length = some '/' ∧
        path = jsSubstr n.path 0 (n.path.length - 1) ∧ n.handler.isSome)
    then n.handler else none
  .ok ⟨params, handler, es ++ [handler]⟩

/-- `Node.prototype.buildStack(path, method, executionStack)`: the
`traverse` loop.  Each `continue traverse` is a recursive call; the GROUP
delegations `_this.handler.buildStack(...)` re-enter with fresh `params`
(and re-lowercase), exactly as a new JS call would.  Accessing a missing
child (`children[i]` undefined, then reading a property of it) throws a
TypeError; delegating to a handler that is not a Node throws a TypeError
(`buildStack` is not a function on it). -/
def buildStackGo (fuel : Nat) (n : Node H) (path : List Char) (method : String)
    (params : List (List Char × List Char)) (es : List (Option (HV H))) :
    Except JsErr (BuildResult H) :=
  match fuel with
  | 0 => .error .fuelOut
  | fuel + 1 =>
    if n.path.length < path.length then
      if path.take n.path.length = n.path then
        let path2 := path.drop n.path.length
        if ¬ n.varChild then
          if n.nodeType = .group then
            match n.handler with
            | some (.tree t) =>
              buildStackGo fuel t (jsLower path2) method [] (es ++ mwEntries n.middleware)
            | _ => .error (.typeErr "buildStack is not a function")
          else
            match n.childKeys.findIdx? (fun k => some k == path2.head?) with
            | some i =>
              match n.children.get? i with
              | none => .error (.typeErr "Cannot read properties of undefined")
              | some c =>
                let es2 := if n.nodeType = .root ∨ n.nodeType = .group
                           then es ++ mwEntries n.middleware else es
                buildStackGo fuel c path2 method params es2
            | none =>
              let handler := if path2 = ['/'] ∧ n.handler.isSome then n.handler else none
              .ok ⟨params, handler, es ++ [handler]⟩
        else
          let es2 := if n.nodeType = .root ∨ n.nodeType = .group
                     then es ++ mwEntries n.middleware else es
          match n.children.head? with
          | none => .error (.typeErr "Cannot read properties of undefined")
          | some c =>
            if c.nodeType = .param then
              let en := (path2.takeWhile (fun x => x ≠ '/')).length
              let params2 := objSet (c.path.drop 1) (path2.take en) params
              if en < path2.length then
                match c.children with
                | gc :: _ => buildStackGo fuel gc (path2.drop en) method params2 es2
                | [] =>
                  let handler := if path2.length = en + 1 then c.handler else none
                  .ok ⟨params2, handler, es2 ++ [handler]⟩
              else
                match c.handler with
                | some h => .ok ⟨params2, some h, es2 ++ mwEntries c.middleware ++ [some h]⟩
                | none =>
                  match c.children with
                  | [gc] =>
                    let handler := if gc.path = ['/'] ∧ gc.handler.isSome
                                   then gc.handler else none
                    .ok ⟨params2, handler, es2 ++ [handler]⟩
                  | _ => .ok ⟨params2, none, es2 ++ [none]⟩
            else if c.nodeType = .wildcard then
              let params2 := objSet (c.path.drop 2) path2 params
              .ok ⟨params2, c.handler, es2 ++ mwEntries c.middleware ++ [c.handler]⟩
            else
              .error (.thrown "Invalid node type")
      else
        bsFallthrough n path params es
    else if path = n.path then
      if n.nodeType = .group then
        match n.handler with
        | some (.tree t) => buildStackGo fuel t ['/'] method [] es
        | _ => .error (.typeErr "buildStack is not a function")
      else
        match n.handler with
        | some h => .ok ⟨params, some h, es ++ mwEntries n.middleware ++ [some h]⟩
        | none =>
          match n.childKeys.findIdx? (fun k => k == '/') with
          | some i =>
            match n.children.get? i with
            | none => .error (.typeErr "Cannot read properties of undefined")
            | some c =>
              if c.path.length = 1 ∧ c.handler.isSome then
                .ok ⟨params, c.handler, es ++ [c.handler]⟩
              else if c.nodeType = .wildcard then
                match c.children.head? with
                | none => .error (.typeErr "Cannot read properties of undefined")
                | some gc =>
                  if gc.handler.isSome then
                    let handler := match c.handler with
                                   | some h => some h
                                   | none => gc.handler
                    .ok ⟨params, handler, es ++ [handler]⟩
                  else .ok ⟨params, none, es ++ [none]⟩
              else .ok ⟨params, none, es ++ [none]⟩
          | none => .ok ⟨params, none, es ++ [none]⟩
    else
      bsFallthrough n path params es

/-- Entry to buildStack: lower-case the path, fresh `params`. -/
def buildStack (fuel : Nat) (n : Node H) (path : List Char) (method : String)
    (es : List (Option (HV H))) : Except JsErr (BuildResult H) :=
  buildStackGo fuel n (jsLower path) method [] es

/-- A JS value passed as the `handler` argument of a registration call,
together with what `typeof` reports for it. -/
inductive JsVal (H : Type) where
  | fnV (h : H)
  | treeV (t : Node H)
  | objV (tag : Nat)
  | nullV
  | strV (s : String)
  | numV (x : Int)
  | boolV (b : Bool)
  | undefV

def typeofJs : JsVal H → String
  | .fnV _ => "function"
  | .treeV _ => "object"
  | .objV _ => "object"
  | .nullV => "object"
  | .strV _ => "string"
  | .numV _ => "number"
  | .boolV _ => "boolean"
  | .undefV => "undefined"

/-- A Router owns one lazily created tree per method key. -/
structure Router (H : Type) where
  trees : String → Option (Node H)

def Router.new : Router H := ⟨fun _ => none⟩

def METHODS : List String := ["GET", "HEAD", "OPTIONS", "POST", "PUT", "PATCH", "DELETE"]

def FUEL : Nat := 200

/-- `Router.prototype.handle(method, path, handler, group)`.  The guard
rejects a handler whose `typeof` is neither 'function' nor 'object' (note
`typeof null` is 'object', so `null` passes and is stored as a null
handler).  The tree object is installed in `trees` before addRoute runs,
so mutations survive a throw from addRoute. -/
def handle (r : Router H) (method : String) (path : List Char) (handler : JsVal H)
    (group : Bool) : Router H × Option JsErr :=
  if getC path 0 ≠ some '/' then (r, some (.thrown "Path must begin with /"))
  else
    let hv? : Option (Option (HV H)) :=
      match handler with
      | .fnV h => some (some (.fn h))
      | .treeV t => some (some (.tree t))
      | .objV g => some (some (.objV g))
      | .nullV => some none
      | _ => none
    match hv? with
    | none => (r, some (.thrown "Must pass handler for route"))
    | some hv =>
      let root := (r.trees method).getD Node.new
      let res := addRoute FUEL root path hv group
      ({ trees := fun m => if m = method then some res.fst else r.trees m }, res.snd)

/-- `addMiddleware(method, middleware, _this)` with `_this` the router:
append the middleware to the (possibly freshly created) root node of the
method's tree. -/
def addMiddlewareR (method : String) (mw : H) (r : Router H) : Router H :=
  let node := (r.trees method).getD Node.new
  let node := node.withMiddleware (node.middleware ++ [mw])
  { trees := fun m => if m = method then some node else r.trees m }

/-- `Router.prototype.use(method, middleware)` after the argument overload
(`use(mw)` is `use('*', mw)`); `middleware` is a function and hence
truthy, so the `!middleware` guard never fires here.  For a concrete
method the middleware is appended to that tree's root via
`addMiddleware(method, middleware, this)`.  For '*' the source runs
`METHODS.forEach(function (method) { addMiddleware(method, middleware, this) })`
with NO thisArg: inside the callback `this` is not the router but (sloppy
mode) the global object, whose `trees` property is undefined, so the very
first iteration throws a TypeError reading `undefined[method]` and no
tree is touched. -/
def use (r : Router H) (method : String) (mw : H) : Router H × Option JsErr :=
  if ¬ METHODS.contains method ∧ method ≠ "*" then
    (r, some (.thrown "method must be one of the 7 REST methods or *"))
  else if method = "*" then
    (r, some (.typeErr "Cannot read properties of undefined"))
  else
    (addMiddlewareR method mw r, none)

/-- What `Router.prototype.serve` does with a request, as an outcome:
`skipped` = no tree exists for the request method, serve returned having
invoked no handler, no middleware and not the notFound responder;
`ran` = walkStack was invoked on the built stack;
`notFound` = the notFound responder was invoked;
`errored` = buildStack threw. -/
inductive ServeOutcome (H : Type) where
  | skipped
  | ran (params : List (List Char × List Char)) (stack : List (Option (HV H)))
  | notFound (params : List (List Char × List Char))
  | errored (e : JsErr)

def serve (r : Router H) (method : String) (path : List Char) : ServeOutcome H :=
  match r.trees method with
  | none => .skipped
  | some root =>
    match buildStack FUEL root path method [] with
    | .error e => .errored e
    | .ok res =>
      match res.handler with
      | some _ => .ran res.params res.stack
      | none => .notFound res.params

/-- `Router.prototype.walkStack(req, res, stack)`.  `next()` shifts the
front of the stack; a falsy entry (null) makes it return without calling
anything; otherwise the entry is invoked and may itself invoke `next` to
continue.  An entry's behavior is abstracted by `cb`: `cb h = true` iff
the middleware `h` invokes its continuation (once, after it finishes).
`walkStack cb stack` is the sequence of entries actually invoked, in
order of invocation. -/
def walkStack {α : Type} (cb : α → Bool) : List (Option α) → List α
  | [] => []
  | none :: _ => []
  | some h :: rest => h :: (if cb h then walkStack cb rest else [])

mutual
/-- All handler-slot values present in a tree (not descending into
sub-router trees stored by group registrations, which registration on
this tree never touches). -/
def handlerVals : Node H → List (HV H)
  | .mk _ _ _ _ _ cs h _ _ => h.toList ++ handlerValsL cs

def handlerValsL : List (Node H) → List (HV H)
  | [] => []
  | c :: cs => handlerVals c ++ handlerValsL cs
end

/-- Shorthand turning a string literal into the JS-string model. -/
def lc (s : String) : List Char := s.toList

/-- Register a sequence of (path, handler tag) routes with `addRoute`,
collecting the per-call error outcomes. -/
def regMany (n : Node Nat) : List (List Char × Nat) → Node Nat × List (Option JsErr)
  | [] => (n, [])
  | q :: rest =>
    let r := addRoute 200 n q.fst (some (.fn q.snd)) false
    let rr := regMany r.fst rest
    (rr.fst, r.snd :: rr.snd)

/-- The registration sequence used to exhibit the childKeys corruption:
five plain static routes, all of which register without error. -/
def corruptionRoutes : List (List Char × Nat) :=
  [(lc "/a", 1), (lc "/b", 2), (lc "/c", 3), (lc "/by", 4), (lc "/bx", 5)]

def corruptionTree : Node Nat := (regMany (@Node.new Nat) corruptionRoutes).fst

/-- A router with the single GET route "/a" (handler tag 0) and one root
middleware (tag 1) attached with `use("GET", mw)`. -/
def mwRouter : Router Nat :=
  (use (handle (@Router.new Nat) "GET" (lc "/a") (.fnV 0) false).fst "GET" 1).fst

def mwTree : Node Nat := (mwRouter.trees "GET").getD Node.new

/-- A router with GET routes "/a" and "/ab" and a root middleware (tag 9):
its tree root keeps nodeType ROOT and has a static child, so a lookup of
"/ab" descends through the ROOT node via childKeys. -/
def mwDescentTree : Node Nat :=
  (((use (handle (handle (@Router.new Nat) "GET" (lc "/a") (.fnV 1) false).fst
      "GET" (lc "/ab") (.fnV 2) false).fst "GET" 9).fst).trees "GET").getD Node.new

/-- Claim C1: calling `use('*', m)` does NOT append `m` to the seven trees:
for every router and middleware the call throws a TypeError (the forEach
callback inside `use` receives no thisArg, so `this.trees` is read off the
global object, which has no such property) and leaves the router
untouched.  This evaluates the code at the claim's input. -/
theorem use_star_throws_typeerror (r : Router H) (mw : H) :
    use r "*" mw = (r, some (.typeErr "Cannot read properties of undefined")) := rfl

/-- Claim C2: the registration sequence /a, /b, /c, /by, /bx succeeds in
full (all five outcomes are `none`), the route "/c" is recorded with
handler 3 along the way, and yet both the trailing-slash variant "/c/"
and "/c" itself afterwards resolve to a null handler: the childKeys
corruption of `reprioritize` makes the registered route unreachable,
contradicting the trailing-slash equivalence the spec promises for every
successfully registered path. -/
theorem registered_route_lost_after_childkeys_corruption :
    (regMany (@Node.new Nat) corruptionRoutes).snd = [none, none, none, none, none] ∧
    ((regMany (@Node.new Nat) (corruptionRoutes.take 3)).fst.children.map
        (fun c => (c.path, c.handler))) =
      [(lc "a", some (.fn 1)), (lc "b", some (.fn 2)), (lc "c", some (.fn 3))] ∧
    (buildStack 200 corruptionTree (lc "/c/") "GET" []).map BuildResult.handler = .ok none ∧
    (buildStack 200 corruptionTree (lc "/c") "GET" []).map BuildResult.handler = .ok none :=
  ⟨rfl, rfl, rfl, rfl⟩

/-- Claim C3: registering '/blog/:post/edit' into an empty tree does not
succeed: the committed PARAM child has segment ':post/edit' (the
`substr(offset, end)` length slip) and the call aborts with a
ReferenceError reading the undeclared `group` while building the suffix
child, so no handler is recorded anywhere. -/
theorem param_suffix_registration_crashes :
    (addRoute 200 (@Node.new Nat) (lc "/blog/:post/edit") (some (.fn 3)) false).snd =
      some (.refErr "group") ∧
    (addRoute 200 (@Node.new Nat) (lc "/blog/:post/edit") (some (.fn 3)) false).fst.path =
      lc "/blog/" ∧
    ((addRoute 200 (@Node.new Nat) (lc "/blog/:post/edit") (some (.fn 3)) false).fst.children.map
        (fun c => (c.path, c.nodeType, c.handler))) = [(lc ":post/edit", .param, none)] :=
  ⟨rfl, rfl, rfl⟩

/-- Claim C4 counterexample: `mwTree` is a ROOT node with middleware
[fn 1]; dispatching "/a/" resolves the registered handler (fn 0), so the
traversal passed through the ROOT node, yet the returned stack is just
[fn 0]: the root middleware does not precede the handler because the
trailing-slash fallback returns `executionStack.concat(handler)` without
the node's middleware. -/
theorem root_middleware_missing_on_trailing_slash :
    mwTree.nodeType = .root ∧ mwTree.middleware = [1] ∧
    (buildStack 200 mwTree (lc "/a/") "GET" []).map BuildResult.handler = .ok (some (.fn 0)) ∧
    (buildStack 200 mwTree (lc "/a/") "GET" []).map BuildResult.stack = .ok [some (.fn 0)] ∧
    ¬ (some (HV.fn 1) ∈ [some (HV.fn 0)]) := by
  refine ⟨rfl, rfl, rfl, rfl, ?_⟩
  simp

/-- Claim C5: after the five successful registrations of
`corruptionRoutes` the root's childKeys is "bcac" (length 4) while it has
only 3 children: `reprioritize`'s substr-based childKeys rebuild
duplicates characters when a bumped child moves past a sibling, so
childKeys and children are neither the same length nor co-indexed. -/
theorem reprioritize_corrupts_childkeys :
    (regMany (@Node.new Nat) corruptionRoutes).snd = [none, none, none, none, none] ∧
    corruptionTree.childKeys = lc "bcac" ∧
    corruptionTree.children.length = 3 ∧
    corruptionTree.children.map Node.path = [lc "b", lc "a", lc "c"] :=
  ⟨rfl, rfl, rfl, rfl⟩

/-- Claim C6 counterexample: a failed duplicate registration of "/a" is
reported with an error, but it does not leave the tree unmodified: the
root's priority was already incremented from 2 to 3 before the duplicate
was detected. -/
theorem failed_duplicate_insert_bumps_priority :
    (addRoute 200 (@Node.new Nat) (lc "/a") (some (.fn 1)) false).fst.priority = 2 ∧
    (addRoute 200 (addRoute 200 (@Node.new Nat) (lc "/a") (some (.fn 1)) false).fst
        (lc "/a") (some (.fn 2)) false).snd =
      some (.thrown "A handler is already registered for path") ∧
    (addRoute 200 (addRoute 200 (@Node.new Nat) (lc "/a") (some (.fn 1)) false).fst
        (lc "/a") (some (.fn 2)) false).fst.priority = 3 :=
  ⟨rfl, rfl, rfl⟩

/-- Claim C7: registering '/assets/*filepath' in an empty tree succeeds,
producing the empty-segment WILDCARD marker node whose single WILDCARD
child carries segment '/*filepath' and the handler; looking up
'/assets/css/site.css' returns that handler with the single params entry
mapping "filepath" to "/css/site.css" (leading slash included). -/
theorem wildcard_route_registration_and_lookup :
    (addRoute 200 (@Node.new Nat) (lc "/assets/*filepath") (some (.fn 7)) false).snd = none ∧
    (addRoute 200 (@Node.new Nat) (lc "/assets/*filepath") (some (.fn 7)) false).fst.path =
      lc "/assets" ∧
    ((addRoute 200 (@Node.new Nat) (lc "/assets/*filepath") (some (.fn 7)) false).fst.children.map
        (fun c => (c.path, c.nodeType, c.children.map (fun g => (g.path, g.nodeType, g.handler))))) =
      [([], .wildcard, [(lc "/*filepath", .wildcard, some (.fn 7))])] ∧
    buildStack 200 (addRoute 200 (@Node.new Nat) (lc "/assets/*filepath")
        (some (.fn 7)) false).fst (lc "/assets/css/site.css") "GET" [] =
      .ok ⟨[(lc "filepath", lc "/css/site.css")], some (.fn 7), [some (.fn 7)]⟩ :=
  ⟨rfl, rfl, rfl, rfl⟩

/-- Claim C8 counterexample: a plain non-callable object (typeof
'object') passes the handler guard: registration succeeds and the object
is recorded as the route handler of the tree root. -/
theorem non_callable_object_handler_accepted :
    typeofJs (@JsVal.objV Nat 5) = "object" ∧
    typeofJs (@JsVal.objV Nat 5) ≠ "function" ∧
    (handle (@Router.new Nat) "GET" (lc "/a") (.objV 5) false).snd = none ∧
    ((handle (@Router.new Nat) "GET" (lc "/a") (.objV 5) false).fst.trees "GET").map
        Node.handler = some (some (.objV 5)) := by
  refine ⟨rfl, ?_, rfl, rfl⟩
  decide

/-- Claim C8 amended: a registration whose handler value reports a
`typeof` that is neither 'function' nor 'object' fails synchronously with
the "Must pass handler for route" error and leaves the router unchanged;
values of typeof 'object' (including non-callable objects and null) pass
the guard. -/
theorem non_function_non_object_handler_rejected (r : Router H) (method : String)
    (path : List Char) (hv : JsVal H) (hp : getC path 0 = some '/')
    (hfn : typeofJs hv ≠ "function") (hobj : typeofJs hv ≠ "object") :
    handle r method path hv false = (r, some (.thrown "Must pass handler for route")) := by
  cases hv <;> first
    | exact absurd rfl hfn
    | exact absurd rfl hobj
    | simp [handle, hp]

theorem non_function_non_object_handler_rejected_witness :
    handle (@Router.new Nat) "GET" (lc "/a") (.strV "nope") false =
      (@Router.new Nat, some (.thrown "Must pass handler for route")) :=
  non_function_non_object_handler_rejected _ _ _ _ rfl (by decide) (by decide)

/-- Claim C9: when the router has no tree for the request method, serve
returns immediately: no handler, no middleware, and not even the
not-found responder is invoked (outcome `skipped`). -/
theorem serve_without_tree_skips (r : Router H) (method : String) (path : List Char)
    (hnone : r.trees method = none) : serve r method path = .skipped := by
  unfold serve
  rw [hnone]

theorem serve_without_tree_skips_witness :
    serve (@Router.new Nat) "GET" (lc "/") = .skipped :=
  serve_without_tree_skips _ _ _ rfl

/-- Entries at and after the first falsy stack entry are never looked at. -/
theorem walkStack_takeWhile {α : Type} (cb : α → Bool) :
    ∀ s : List (Option α), walkStack cb s = walkStack cb (s.takeWhile Option.isSome)
  | [] => rfl
  | none :: _ => rfl
  | some h :: rest => by
    simp only [List.takeWhile, Option.isSome, walkStack]
    by_cases hcb : cb h = true
    · rw [hcb]
      simp only [if_true]
      rw [walkStack_takeWhile cb rest]
    · rw [Bool.not_eq_true] at hcb
      rw [hcb]
      simp

/-- What walkStack invokes is an in-order prefix of the non-null entries
that precede the first falsy entry. -/
theorem walkStack_prefix_filterMap {α : Type} (cb : α → Bool) :
    ∀ s : List (Option α),
      ∃ t, walkStack cb s ++ t = (s.takeWhile Option.isSome).filterMap id
  | [] => ⟨[], rfl⟩
  | none :: _ => ⟨[], rfl⟩
  | some h :: rest => by
    obtain ⟨t, ht⟩ := walkStack_prefix_filterMap cb rest
    simp only [List.takeWhile, Option.isSome, List.filterMap, walkStack, id]
    by_cases hcb : cb h = true
    · exact ⟨t, by simp [hcb, ht]⟩
    · rw [Bool.not_eq_true] at hcb
      exact ⟨(rest.takeWhile Option.isSome).filterMap id, by simp [hcb]⟩

/-- Entry i+1 is invoked only if entry i was invoked and calls next. -/
theorem walkStack_step {α : Type} (cb : α → Bool) :
    ∀ (s : List (Option α)) (i : Nat) (h2 : α),
      (walkStack cb s).get? (i + 1) = some h2 →
      ∃ h1, (walkStack cb s).get? i = some h1 ∧ cb h1 = true
  | [], _, _, hg => by simp [walkStack] at hg
  | none :: _, _, _, hg => by simp [walkStack] at hg
  | some h :: rest, i, h2, hg => by
    by_cases hcb : cb h = true
    · simp only [walkStack, hcb, if_true] at hg ⊢
      match i with
      | 0 => exact ⟨h, rfl, hcb⟩
      | j + 1 =>
        simp only [List.get?] at hg ⊢
        exact walkStack_step cb rest j h2 hg
    · rw [Bool.not_eq_true] at hcb
      simp only [walkStack, hcb, if_false] at hg
      match i with
      | 0 => simp at hg
      | j + 1 => simp at hg

/-- Claim C10: walkStack invokes stack entries strictly in sequence (an
entry runs only if its predecessor ran and invoked next), it invokes
nothing at or after the first falsy entry (so a null terminal element is
never invoked), and the invoked sequence is an in-order prefix of the
non-null entries before the first falsy one. -/
theorem walkStack_sequential_and_null_safe {α : Type} (cb : α → Bool) (s : List (Option α)) :
    (∀ i h2, (walkStack cb s).get? (i + 1) = some h2 →
      ∃ h1, (walkStack cb s).get? i = some h1 ∧ cb h1 = true) ∧
    walkStack cb s = walkStack cb (s.takeWhile Option.isSome) ∧
    (∀ rest : List (Option α), walkStack cb (none :: rest) = []) ∧
    (∃ t, walkStack cb s ++ t = (s.takeWhile Option.isSome).filterMap id) :=
  ⟨walkStack_step cb s, walkStack_takeWhile cb s, fun _ => rfl,
    walkStack_prefix_filterMap cb s⟩

theorem walkStack_sequential_and_null_safe_witness :
    ∃ h1, (walkStack (fun _ => true) [some 1, some 2, none, some 0]).get? 0 = some h1 ∧
      (fun _ => true) h1 = true :=
  (walkStack_sequential_and_null_safe (fun _ => true)
    [some 1, some 2, none, some 0]).1 0 2 rfl

/-- Every successful buildStack result's stack extends the accumulated
execution stack the call started from, and its last entry is exactly the
resolved handler value (possibly null): every return site of the source
ends in `executionStack.concat(...).concat(handler)`. -/
theorem buildStackGo_ok_shape :
    ∀ (fuel : Nat) (n : Node H) (path : List Char) (method : String)
      (params : List (List Char × List Char)) (es : List (Option (HV H)))
      (r : BuildResult H),
      buildStackGo fuel n path method params es = .ok r →
      (∃ t, r.stack = es ++ t) ∧ r.stack.getLast? = some r.handler := by
  intro fuel
  induction fuel with
  | zero =>
    intro n path method params es r h
    simp [buildStackGo] at h
  | succ f ih =>
    intro n path method params es r h
    simp only [buildStackGo, bsFallthrough] at h
    repeat' split at h
    all_goals try exact Except.noConfusion h
    all_goals try
      (injection h with h
       subst h
       refine ⟨?_, List.getLast?_concat _⟩
       first
         | exact ⟨_, rfl⟩
         | exact ⟨_, List.append_assoc _ _ _⟩
         | exact ⟨_, by rw [List.append_assoc, List.append_assoc]⟩)
    all_goals
      (obtain ⟨⟨t, ht⟩, hl⟩ := ih _ _ _ _ _ _ h
       refine ⟨?_, hl⟩
       first
         | exact ⟨t, ht⟩
         | exact ⟨_, by rw [ht, List.append_assoc]⟩)

/-- Claim C4 amended: ROOT and GROUP nodes contribute their middleware to
the accumulated stack at the moment the lookup passes through them while
descending, before the descent — (a) a ROOT node descending into the
static child selected via childKeys appends its middleware to the
accumulated stack first; (b) a GROUP node delegating the trimmed path to
its sub-router appends its middleware first; (c) a ROOT or GROUP node
descending into its variable child appends its middleware to the stack
before everything contributed later; and (d) every successful lookup's
stack extends the accumulated stack and ends with the resolved handler
entry, so contributed middleware precedes the handler.  (On trailing-slash
fallback resolutions the node's middleware is omitted; see the
counterexample.) -/
theorem middleware_appended_on_descent
    (fuel : Nat) (n : Node H) (path : List Char) (method : String)
    (params : List (List Char × List Char)) (es : List (Option (HV H))) :
    (∀ i c, n.nodeType = .root → n.varChild = false →
      n.path.length < path.length → path.take n.path.length = n.path →
      n.childKeys.findIdx? (fun k => some k == (path.drop n.path.length).head?) = some i →
      n.children.get? i = some c →
      buildStackGo (fuel + 1) n path method params es =
        buildStackGo fuel c (path.drop n.path.length) method params
          (es ++ mwEntries n.middleware)) ∧
    (∀ t, n.nodeType = .group → n.varChild = false →
      n.path.length < path.length → path.take n.path.length = n.path →
      n.handler = some (.tree t) →
      buildStackGo (fuel + 1) n path method params es =
        buildStackGo fuel t (jsLower (path.drop n.path.length)) method []
          (es ++ mwEntries n.middleware)) ∧
    (∀ r, (n.nodeType = .root ∨ n.nodeType = .group) → n.varChild = true →
      n.path.length < path.length → path.take n.path.length = n.path →
      buildStackGo (fuel + 1) n path method params es = .ok r →
      ∃ u, r.stack = es ++ mwEntries n.middleware ++ u) ∧
    (∀ r, buildStackGo fuel n path method params es = .ok r →
      (∃ u, r.stack = es ++ u) ∧ r.stack.getLast? = some r.handler) := by
  refine ⟨?_, ?_, ?_, fun r h => buildStackGo_ok_shape fuel n path method params es r h⟩
  · intro i c hroot hvc hlen hpre hfind hget
    simp only [buildStackGo, hfind, hget]
    simp [hroot, hvc, hlen, hpre]
  · intro t hgrp hvc hlen hpre hh
    simp only [buildStackGo, hh]
    simp [hgrp, hvc, hlen, hpre]
  · intro r htype hvc hlen hpre h
    simp only [buildStackGo] at h
    rw [if_pos hlen] at h
    rw [if_pos hpre] at h
    rw [hvc] at h
    rw [if_neg (show ¬¬(true = true) from fun hc => hc rfl)] at h
    rw [if_pos htype] at h
    repeat' split at h
    all_goals try exact Except.noConfusion h
    all_goals try
      (injection h with h
       subst h
       first
         | exact ⟨_, rfl⟩
         | exact ⟨_, List.append_assoc _ _ _⟩)
    all_goals
      (obtain ⟨⟨u, hu⟩, _⟩ := buildStackGo_ok_shape _ _ _ _ _ _ _ h
       exact ⟨u, hu⟩)

theorem middleware_appended_on_descent_witness :
    buildStackGo 31 mwDescentTree (lc "/ab") "GET" [] [] =
      buildStackGo 30 (mwDescentTree.children.headD Node.new)
        ((lc "/ab").drop mwDescentTree.path.length) "GET" []
        ([] ++ mwEntries mwDescentTree.middleware) :=
  (middleware_appended_on_descent 30 mwDescentTree (lc "/ab") "GET" [] []).1 0 _
    rfl rfl (by decide) rfl rfl rfl

@[simp] theorem Node.handler_mk (p : List Char) (v : Bool) (t : NType) (m : Int)
    (ck : List Char) (cs : List (Node H)) (h : Option (HV H)) (pr : Int) (mw : List H) :
    (Node.mk p v t m ck cs h pr mw).handler = h := rfl

@[simp] theorem Node.children_mk (p : List Char) (v : Bool) (t : NType) (m : Int)
    (ck : List Char) (cs : List (Node H)) (h : Option (HV H)) (pr : Int) (mw : List H) :
    (Node.mk p v t m ck cs h pr mw).children = cs := rfl

@[simp] theorem handler_withPath (n : Node H) (x : List Char) :
    (n.withPath x).handler = n.handler := by cases n; rfl

@[simp] theorem children_withPath (n : Node H) (x : List Char) :
    (n.withPath x).children = n.children := by cases n; rfl

@[simp] theorem handler_withVarChild (n : Node H) (x : Bool) :
    (n.withVarChild x).handler = n.handler := by cases n; rfl

@[simp] theorem children_withVarChild (n : Node H) (x : Bool) :
    (n.withVarChild x).children = n.children := by cases n; rfl

@[simp] theorem handler_withNodeType (n : Node H) (x : NType) :
    (n.withNodeType x).handler = n.handler := by cases n; rfl

@[simp] theorem children_withNodeType (n : Node H) (x : NType) :
    (n.withNodeType x).children = n.children := by cases n; rfl

@[simp] theorem handler_withMaxVars (n : Node H) (x : Int) :
    (n.withMaxVars x).handler = n.handler := by cases n; rfl

@[simp] theorem children_withMaxVars (n : Node H) (x : Int) :
    (n.withMaxVars x).children = n.children := by cases n; rfl

@[simp] theorem handler_withChildKeys (n : Node H) (x : List Char) :
    (n.withChildKeys x).handler = n.handler := by cases n; rfl

@[simp] theorem children_withChildKeys (n : Node H) (x : List Char) :
    (n.withChildKeys x).children = n.children := by cases n; rfl

@[simp] theorem handler_withMiddleware (n : Node H) (x : List H) :
    (n.withMiddleware x).handler = n.handler := by cases n; rfl

@[simp] theorem children_withMiddleware (n : Node H) (x : List H) :
    (n.withMiddleware x).children = n.children := by cases n; rfl

@[simp] theorem handler_bumpPriority (n : Node H) :
    n.bumpPriority.handler = n.handler := by cases n; rfl

@[simp] theorem children_bumpPriority (n : Node H) :
    n.bumpPriority.children = n.children := by cases n; rfl

@[simp] theorem handler_withChildren (n : Node H) (cs : List (Node H)) :
    (n.withChildren cs).handler = n.handler := by cases n; rfl

@[simp] theorem children_withChildren (n : Node H) (cs : List (Node H)) :
    (n.withChildren cs).children = cs := by cases n; rfl

@[simp] theorem handler_withHandler (n : Node H) (h : Option (HV H)) :
    (n.withHandler h).handler = h := by cases n; rfl

@[simp] theorem children_withHandler (n : Node H) (h : Option (HV H)) :
    (n.withHandler h).children = n.children := by cases n; rfl

/-- handlerVals through the two relevant fields. -/
@[simp] theorem handlerVals_expand (n : Node H) :
    handlerVals n = n.handler.toList ++ handlerValsL n.children := by cases n; rfl

@[simp] theorem handlerValsL_nil : handlerValsL ([] : List (Node H)) = [] := rfl

@[simp] theorem handlerValsL_cons (c : Node H) (cs : List (Node H)) :
    handlerValsL (c :: cs) = handlerVals c ++ handlerValsL cs := rfl

theorem mem_handlerValsL {v : HV H} : ∀ {cs : List (Node H)},
    v ∈ handlerValsL cs ↔ ∃ c, c ∈ cs ∧ v ∈ handlerVals c := by
  intro cs
  induction cs with
  | nil => simp
  | cons c cs ih =>
    constructor
    · intro h
      rcases List.mem_append.mp h with h | h
      · exact ⟨c, List.mem_cons_self c cs, h⟩
      · obtain ⟨d, hd, hvd⟩ := ih.mp h
        exact ⟨d, List.mem_cons_of_mem c hd, hvd⟩
    · rintro ⟨d, hd, hvd⟩
      rcases List.mem_cons.mp hd with rfl | hd
      · exact List.mem_append.mpr (Or.inl hvd)
      · exact List.mem_append.mpr (Or.inr (ih.mpr ⟨d, hd, hvd⟩))

theorem mem_insertDesc {x y : Nat × Node H} : ∀ {l : List (Nat × Node H)},
    x ∈ insertDesc y l ↔ x = y ∨ x ∈ l := by
  intro l
  induction l with
  | nil => simp [insertDesc]
  | cons z zs ih =>
    simp only [insertDesc]
    split
    · simp
    · simp [ih]
      tauto

theorem mem_foldl_insertDesc {x : Nat × Node H} :
    ∀ (l acc : List (Nat × Node H)),
      x ∈ l.foldl (fun a q => insertDesc q a) acc → x ∈ acc ∨ x ∈ l := by
  intro l
  induction l with
  | nil => intro acc h; exact Or.inl h
  | cons q qs ih =>
    intro acc h
    rcases ih (insertDesc q acc) h with h2 | h2
    · rcases mem_insertDesc.mp h2 with h3 | h3
      · exact Or.inr (by simp [h3])
      · exact Or.inl h3
    · exact Or.inr (by simp [h2])

theorem mem_jsSortTagged {x : Nat × Node H} {l : List (Nat × Node H)}
    (h : x ∈ jsSortTagged l) : x ∈ l := by
  rcases mem_foldl_insertDesc l [] h with h2 | h2
  · simp at h2
  · exact h2

/-- A failed (or successful) reprioritize only bumps a priority and
permutes children, so every handler value afterwards was present before. -/
theorem reprioritize_handler_subset {n n2 : Node H} {j a b : Nat}
    (h : reprioritize n j = .ok (n2, a, b)) :
    ∀ v, v ∈ handlerVals n2 → v ∈ handlerVals n := by
  intro v hv
  unfold reprioritize at h
  rcases hg : n.children.get? j with _ | child0
  · rw [hg] at h; exact absurd h (by simp)
  · rw [hg] at h
    simp only [Except.ok.injEq] at h
    obtain ⟨hn2, -, -⟩ := Prod.mk.injEq .. ▸ h
    subst hn2
    simp only [handlerVals_expand, handler_withChildKeys, handler_withChildren,
      children_withChildKeys, children_withChildren, List.mem_append] at hv ⊢
    rcases hv with hv | hv
    · exact Or.inl hv
    · right
      rcases mem_handlerValsL.mp hv with ⟨c, hc, hvc⟩
      rcases List.mem_map.mp hc with ⟨q, hq, rfl⟩
      have hq2 : q ∈ (n.children.set j child0.bumpPriority).enum := mem_jsSortTagged hq
      have hq3 : q.snd ∈ n.children.set j child0.bumpPriority := by
        have := List.enum_map_snd (n.children.set j child0.bumpPriority)
        rw [← this]
        exact List.mem_map_of_mem Prod.snd hq2
      rcases List.mem_or_eq_of_mem_set hq3 with h4 | h4
      · exact mem_handlerValsL.mpr ⟨q.snd, h4, hvc⟩
      · have hmem : child0 ∈ n.children := List.get?_mem hg
        refine mem_handlerValsL.mpr ⟨child0, hmem, ?_⟩
        rw [h4] at hvc
        simpa using hvc

set_option maxHeartbeats 1000000

theorem addChildGo_error_subset :
    ∀ (fuel : Nat) (n : Node H) (numVars : Int) (path : List Char)
      (handler : Option (HV H)) (offset i : Nat) (n2 : Node H) (e : JsErr),
      addChildGo fuel n numVars path handler offset i = (n2, some e) →
      ∀ v, v ∈ handlerVals n2 → v ∈ handlerVals n := by
  intro fuel
  induction fuel with
  | zero =>
    intro n numVars path handler offset i n2 e h
    simp only [addChildGo] at h
    injection h with h1 h2
    subst h1
    exact fun v hv => hv
  | succ f ih =>
    intro n numVars path handler offset i n2 e h
    simp only [addChildGo] at h
    repeat' split at h
    all_goals try
      (injection h with h1 h2
       first
         | exact Option.noConfusion h2
         | (subst h1; exact fun v hv => hv))
    all_goals try
      (exact ih _ _ _ _ _ _ _ _ h)
    all_goals injection h with h1 h2
    all_goals subst h1
    all_goals intro v hv
    all_goals try (simp at hv ⊢; exact Or.inl hv)
    · rcases hrec : addChildGo f (Node.mk [] false NType.param numVars [] [] none 1 [])
          (numVars - 1) path handler i (i + 1) with ⟨pc2, e2⟩
      simp only [hrec] at h2 hv
      subst h2
      simp only [handlerVals_expand, handler_withVarChild, children_withVarChild,
        handler_withChildren, children_withChildren, handler_withPath, children_withPath,
        handlerValsL_cons, handlerValsL_nil, List.append_nil] at hv
      rcases List.mem_append.mp hv with hx | hx
      · rw [handlerVals_expand]
        exact List.mem_append.mpr (Or.inl hx)
      · have h3 : v ∈ handlerVals pc2 := by rw [handlerVals_expand]; exact hx
        have h4 := ih _ _ _ _ _ _ _ _ hrec v h3
        simp at h4
    · rcases hrec : addChildGo f (Node.mk [] false NType.param numVars [] [] none 1 [])
          (numVars - 1) path handler offset (i + 1) with ⟨pc2, e2⟩
      simp only [hrec] at h2 hv
      subst h2
      simp only [handlerVals_expand, handler_withVarChild, children_withVarChild,
        handler_withChildren, children_withChildren, handler_withPath, children_withPath,
        handlerValsL_cons, handlerValsL_nil, List.append_nil] at hv
      rcases List.mem_append.mp hv with hx | hx
      · rw [handlerVals_expand]
        exact List.mem_append.mpr (Or.inl hx)
      · have h3 : v ∈ handlerVals pc2 := by rw [handlerVals_expand]; exact hx
        have h4 := ih _ _ _ _ _ _ _ _ hrec v h3
        simp at h4


/-- A node split moves the handler into the new child: the set of handler
values is unchanged. -/
@[simp] theorem handlerVals_splitNode (n : Node H) (i : Nat) (path : List Char) :
    handlerVals (splitNode n i path) = handlerVals n := by
  cases n
  simp [splitNode]

@[simp] theorem handler_splitNode (n : Node H) (i : Nat) (path : List Char) :
    (splitNode n i path).handler = none := by
  cases n
  rfl

@[simp] theorem children_splitNode (n : Node H) (i : Nat) (path : List Char) :
    (splitNode n i path).children =
      [Node.mk (n.path.drop i) n.varChild n.nodeType
        (n.children.foldl (fun acc c => if c.maxVars > acc then c.maxVars else acc) n.maxVars)
        n.childKeys n.children n.handler (n.priority - 1) []] := by
  cases n
  rfl

@[simp] theorem handlerValsL_append : ∀ (a b : List (Node H)),
    handlerValsL (a ++ b) = handlerValsL a ++ handlerValsL b := by
  intro a b
  induction a with
  | nil => simp
  | cons c cs ih => simp [ih]

/-- Rebuild a pair from its second projection. -/
theorem pairEtaSnd {α β : Type} {q : α × β} {b : β} (h : q.snd = b) : q = (q.fst, b) := by
  rw [← h]

/-- Replacing the head child by one whose handlers are a subset introduces
no new handler values. -/
theorem handlerVals_consChildren_subset {N c c' : Node H} {rest : List (Node H)}
    (hc : N.children = c :: rest)
    (hsub : ∀ w, w ∈ handlerVals c' → w ∈ handlerVals c) :
    ∀ v, v ∈ handlerVals (N.withChildren (c' :: rest)) → v ∈ handlerVals N := by
  intro v hv
  rw [handlerVals_expand, handler_withChildren, children_withChildren, handlerValsL_cons] at hv
  rw [handlerVals_expand, hc, handlerValsL_cons]
  rcases List.mem_append.mp hv with hx | hx
  · exact List.mem_append.mpr (Or.inl hx)
  · rcases List.mem_append.mp hx with hy | hy
    · exact List.mem_append.mpr (Or.inr (List.mem_append.mpr (Or.inl (hsub v hy))))
    · exact List.mem_append.mpr (Or.inr (List.mem_append.mpr (Or.inr hy)))

/-- Replacing the child at an index by one whose handlers are a subset of
that child's introduces no new handler values. -/
theorem handlerVals_setChildren_subset {N : Node H} {j : Nat} {c c' : Node H}
    (hg : N.children.get? j = some c)
    (hsub : ∀ w, w ∈ handlerVals c' → w ∈ handlerVals c) :
    ∀ v, v ∈ handlerVals (N.withChildren (N.children.set j c')) → v ∈ handlerVals N := by
  intro v hv
  rw [handlerVals_expand, handler_withChildren, children_withChildren] at hv
  rw [handlerVals_expand]
  rcases List.mem_append.mp hv with hx | hx
  · exact List.mem_append.mpr (Or.inl hx)
  · rcases mem_handlerValsL.mp hx with ⟨d, hd, hvd⟩
    rcases List.mem_or_eq_of_mem_set hd with hd2 | hd2
    · exact List.mem_append.mpr (Or.inr (mem_handlerValsL.mpr ⟨d, hd2, hvd⟩))
    · subst hd2
      exact List.mem_append.mpr (Or.inr (mem_handlerValsL.mpr ⟨c, List.get?_mem hg, hsub v hvd⟩))


theorem addRouteLoop_error_subset :
    ∀ (fuel : Nat) (n : Node H) (path : List Char) (numVars : Int)
      (handler : Option (HV H)) (group : Bool) (n2 : Node H) (e : JsErr),
      addRouteLoop fuel n path numVars handler group = (n2, some e) →
      ∀ v, v ∈ handlerVals n2 → v ∈ handlerVals n := by
  intro fuel
  induction fuel with
  | zero =>
    intro n path numVars handler group n2 e h
    simp only [addRouteLoop] at h
    injection h with h1 h2
    subst h1
    exact fun v hv => hv
  | succ f ih =>
    intro n path numVars handler group n2 e h
    simp only [addRouteLoop] at h
    repeat' split at h
    all_goals try
      (injection h with h1 h2
       first
         | exact Option.noConfusion h2
         | (subst h1; intro v hv; simp at hv ⊢; first | exact hv | tauto))
    all_goals try
      (intro v hv
       exact (by simpa using addChildGo_error_subset _ _ _ _ _ _ _ _ _ h v hv))
    all_goals try
      (rename Node.children _ = _ :: _ => heqc
       injection h with h1 h2
       subst h1
       have hrec := pairEtaSnd h2
       have hs0 := ih _ _ _ _ _ _ _ hrec
       intro v hv
       have hfin := handlerVals_consChildren_subset heqc
         (fun w hw => by simpa using hs0 w hw) v hv
       simpa using hfin)
    all_goals try
      (rename Node.children _ = _ :: _ => heqc
       injection h with h1 h2
       subst h1
       intro v hv
       have hfin := handlerVals_consChildren_subset heqc
         (fun w hw => by simpa using hw) v hv
       simpa using hfin)
    all_goals try
      (rename reprioritize _ _ = Except.ok _ => heqr
       rename List.get? _ _ = some _ => heqg
       injection h with h1 h2
       subst h1
       have hrec := pairEtaSnd h2
       first
         | (have hs0 := ih _ _ _ _ _ _ _ hrec
            intro v hv
            have hfin := handlerVals_setChildren_subset heqg (fun w hw => hs0 w hw) v hv
            have hfin2 := reprioritize_handler_subset heqr v hfin
            simpa using hfin2)
         | (have hs0 := addChildGo_error_subset _ _ _ _ _ _ _ _ _ hrec
            intro v hv
            have hfin := handlerVals_setChildren_subset heqg (fun w hw => hs0 w hw) v hv
            have hfin2 := reprioritize_handler_subset heqr v hfin
            simpa using hfin2))
    all_goals
      (rename reprioritize _ _ = Except.ok _ => heqr
       injection h with h1 h2
       subst h1
       intro v hv
       have hfin := reprioritize_handler_subset heqr v hv
       simpa using hfin)


/-- Claim C6 amended: a registration call that fails with an error records
no handler: every handler value present in the tree returned by the failed
addRoute call was already present in the tree before it.  (Bookkeeping
mutations - priority and maxVars updates, node splits, fresh empty
children - do persist; see the counterexample.) -/
theorem addRoute_error_records_no_new_handler
    (fuel : Nat) (n : Node H) (path : List Char) (handler : Option (HV H))
    (group : Bool) (n2 : Node H) (e : JsErr)
    (h : addRoute fuel n path handler group = (n2, some e)) :
    ∀ v, v ∈ handlerVals n2 → v ∈ handlerVals n := by
  intro v hv
  simp only [addRoute] at h
  split at h
  · have hs := addRouteLoop_error_subset fuel n.bumpPriority (jsLower path)
      (pathVariables (jsLower path)) handler group n2 e h v hv
    simpa using hs
  · split at h
    · injection h with h1 h2
      subst h1
      rename Prod.snd _ = some _ => heqs
      have hrec := pairEtaSnd heqs
      have hs0 := addChildGo_error_subset _ _ _ _ _ _ _ _ _ hrec v hv
      simpa using hs0
    · injection h with h1 h2
      exact Option.noConfusion h2

theorem addRoute_error_records_no_new_handler_witness :
    HV.fn 1 ∈ handlerVals (addRoute 200 (@Node.new Nat) (lc "/a") (some (.fn 1)) false).fst :=
  addRoute_error_records_no_new_handler 200 _ (lc "/a") (some (.fn 2)) false _
    (.thrown "A handler is already registered for path") rfl (HV.fn 1)
    (by show HV.fn 1 ∈ [HV.fn 1]; exact List.mem_singleton_self _)

end RadRouter
